import Mathlib

/-!
Verification development for the SQL-generation-engine repository.

This file shallowly embeds the two core components named by the spec:

* `backend/src/graph_manager.py` (`SchemaGraph`): the weighted schema graph,
  its construction from introspected foreign keys plus manually curated
  edges, and `find_connection_query` (the join-path finder).
* `backend/src/agent.py` (`SQLAgentGenerator`): the LangGraph workflow nodes
  (`check_query_node`, `validate_answer_node`, `generate_final_answer_node`),
  the conditional edges (`should_continue`, `should_retry`), the compiled
  step graph, and the `run` adapter's error wrapping.

LLM calls and tool executions are opaque external capabilities; they are
modelled as oracle parameters (functions supplied to the step semantics).
Python exceptions (AttributeError / UnboundLocalError / driver failures)
are modelled with `Except String`.  Python float edge weights are the
literals 1.0 and 10.0 only, modelled as the naturals 1 and 10.

String helpers are implemented over `List Char` by structural recursion so
that every definition evaluates inside the kernel (`decide`/`rfl`).  They
mirror Python's case-sensitive `in`, `startswith`, `strip`, `upper`,
`lower` and `split(...)[-1]` on the ASCII strings this code manipulates.
-/

namespace SqlAgent

/-- Python `pat in s` helper: does `pat` occur as a leading block of `s`?
(char-list version of `str.startswith`). -/
def chStarts : List Char → List Char → Bool
  | [], _ => true
  | _ :: _, [] => false
  | a :: as, b :: bs => a == b && chStarts as bs

/-- Python's substring test `pat in s` over char lists. -/
def chContains (pat : List Char) : List Char → Bool
  | [] => chStarts pat []
  | c :: rest => chStarts pat (c :: rest) || chContains pat rest

/-- Python `pat in s` on strings (case-sensitive, exact code points). -/
def strContains (s pat : String) : Bool :=
  chContains pat.data s.data

/-- Python `s.startswith(pre)`. -/
def strStartsWith (s pre : String) : Bool :=
  chStarts pre.data s.data

/-- Python `s.upper()` (ASCII letters, as used by this code). -/
def upperStr (s : String) : String :=
  String.mk (s.data.map Char.toUpper)

/-- Python `s.lower()` (ASCII letters, as used by this code). -/
def lowerStr (s : String) : String :=
  String.mk (s.data.map Char.toLower)

/-- Characters Python's `str.strip()` removes. -/
def pySpace (c : Char) : Bool :=
  c == ' ' || c == '\t' || c == '\n' || c == '\r' || c == '\x0b' || c == '\x0c'

/-- Python `s.strip()`. -/
def trimStr (s : String) : String :=
  String.mk (((s.data.dropWhile pySpace).reverse.dropWhile pySpace).reverse)

/-- Suffix of `s` after the last occurrence of `pat`, or `none` when `pat`
does not occur.  Used to model Python `s.split(pat)[-1]` for the
non-self-overlapping literal `"FEEDBACK:"`. -/
def chAfterLast (pat : List Char) : List Char → Option (List Char)
  | [] => none
  | c :: rest =>
    match chAfterLast pat rest with
    | some suf => some suf
    | none =>
      if chStarts pat (c :: rest) then some ((c :: rest).drop pat.length) else none

/-- Python `s.split(pat)[-1]`: text after the last occurrence of `pat`
(the whole string when `pat` is absent). -/
def afterLastMarker (pat s : String) : String :=
  match chAfterLast pat.data s.data with
  | some suf => String.mk suf
  | none => s

/-- Lexicographic code-point comparison, Python's string `<=` used by `sorted`. -/
def chLe : List Char → List Char → Bool
  | [], _ => true
  | _ :: _, [] => false
  | a :: as, b :: bs => if a == b then chLe as bs else decide (a.toNat < b.toNat)

/-- Insert into a sorted list of strings (helper for `sortStrings`). -/
def insertS (x : String) : List String → List String
  | [] => [x]
  | y :: ys => if chLe x.data y.data then x :: y :: ys else y :: insertS x ys

/-- Python `sorted` on strings (insertion sort, code-point order). -/
def sortStrings : List String → List String
  | [] => []
  | x :: xs => insertS x (sortStrings xs)

/-- Deduplication keeping first occurrences (order is irrelevant to the
callers: the result is either sorted or rendered as a Python set). -/
def dedupAux (seen : List String) : List String → List String
  | [] => []
  | x :: xs => if seen.contains x then dedupAux seen xs else x :: dedupAux (x :: seen) xs

/-- Set-like deduplication of a string list (models Python `set(...)`). -/
def dedupStr (l : List String) : List String :=
  dedupAux [] l

/-- Python `"\n".join(lines)`. -/
def joinLines : List String → String
  | [] => ""
  | [x] => x
  | x :: y :: rest => x ++ "\n" ++ joinLines (y :: rest)

/-- Python `", ".join(parts)`. -/
def joinCommaSp : List String → String
  | [] => ""
  | [x] => x
  | x :: y :: rest => x ++ ", " ++ joinCommaSp (y :: rest)

/-- Rendering of a nonempty Python set of strings, e.g. `\x7b'a', 'b'\x7d`.
CPython's set iteration order is unspecified; the model fixes
first-occurrence order (single-element sets render identically either way). -/
def renderPySet (l : List String) : String :=
  "\x7b" ++ joinCommaSp (l.map (fun s => "'" ++ s ++ "'")) ++ "\x7d"

/-! ## Schema graph (`backend/src/graph_manager.py`) -/

/-- One undirected edge of the schema graph: endpoints, the `on` join
condition, and the Dijkstra weight (source floats 1.0 / 10.0 as 1 / 10). -/
structure Edge where
  a : String
  b : String
  onc : String
  weight : Nat
deriving DecidableEq, Repr

/-- The `networkx.Graph` built by `SchemaGraph._build_graph`, reduced to its
edge list (nodes are exactly the edge endpoints; the code adds nodes only
through `add_edge`). -/
structure SchemaGraph where
  edges : List Edge
deriving DecidableEq, Repr

/-- Does `e` connect the unordered pair `x, y`? -/
def sameEnds (e : Edge) (x y : String) : Bool :=
  (e.a == x && e.b == y) || (e.a == y && e.b == x)

/-- `networkx` `add_edge`: a duplicate unordered pair overwrites the stored
attributes, otherwise the edge is appended. -/
def addEdge (g : SchemaGraph) (t1 t2 onc : String) (w : Nat) : SchemaGraph :=
  if g.edges.any (fun e => sameEnds e t1 t2) then
    ⟨g.edges.map (fun e => if sameEnds e t1 t2 then ⟨t1, t2, onc, w⟩ else e)⟩
  else
    ⟨g.edges ++ [⟨t1, t2, onc, w⟩]⟩

/-- `t in graph.nodes`. -/
def hasNode (g : SchemaGraph) (t : String) : Bool :=
  g.edges.any (fun e => e.a == t || e.b == t)

/-- `graph[x][y]` lookup: the stored edge of the unordered pair, if any. -/
def edgeBetween (g : SchemaGraph) (x y : String) : Option Edge :=
  g.edges.find? (fun e => sameEnds e x y)

/-- Weighted adjacency list of `u` (edge partner and weight). -/
def neighborsOf (g : SchemaGraph) (u : String) : List (String × Nat) :=
  g.edges.filterMap (fun e =>
    if e.a == u then some (e.b, e.weight)
    else if e.b == u then some (e.a, e.weight) else none)

/-- A row of the `information_schema.KEY_COLUMN_USAGE` introspection query. -/
structure FKRow where
  table : String
  column : String
  refTable : String
  refColumn : String
deriving DecidableEq, Repr

/-- Weight given to a discovered foreign-key edge: 10 when either endpoint
table name contains the substring `"user"`, else 1
(`graph_manager.py` lines 50-55). -/
def fkWeight (t1 t2 : String) : Nat :=
  if strContains t1 "user" || strContains t2 "user" then 10 else 1

/-- Insert one discovered foreign-key edge (loop body of `_build_graph`). -/
def fkStep (g : SchemaGraph) (r : FKRow) : SchemaGraph :=
  addEdge g r.table r.refTable
    (r.table ++ "." ++ r.column ++ " = " ++ r.refTable ++ "." ++ r.refColumn)
    (fkWeight r.table r.refTable)

/-- The manually curated edges of `_build_graph` (`graph_manager.py`
lines 58-67), in source order, with their authored weights. -/
def manualEdges : List (String × String × String × Nat) :=
  [("patient", "map_patient_metrics", "patient.patient_id = map_patient_metrics.patient_id", 1),
   ("map_patient_metrics", "lob", "map_patient_metrics.lob_id = lob.lob_id", 1),
   ("lob", "organization", "lob.org_guid = organization.org_guid", 1),
   ("patient", "patient_score", "patient.patient_id = patient_score.patient_id", 1),
   ("patient", "contributor_individual", "patient.patient_id = contributor_individual.patient_id", 1),
   ("contributor_individual", "contributor_type", "contributor_individual.contr_type = contributor_type.contr_type", 1),
   ("patient", "user", "patient.patient_coordinator = user.user_id", 10)]

/-- Insert one manually curated edge. -/
def manualStep (g : SchemaGraph) (t : String × String × String × Nat) : SchemaGraph :=
  addEdge g t.1 t.2.1 t.2.2.1 t.2.2.2

/-- `SchemaGraph._build_graph`: the whole body runs inside a `try`; the
argument is the outcome of the foreign-key introspection query
(`Except.error` = the driver raised).  On an exception nothing has been
added — the manual edges sit inside the same protected block after the
introspection call — so the graph stays empty. -/
def build_graph (fkResult : Except String (List FKRow)) : SchemaGraph :=
  match fkResult with
  | .error _ => ⟨[]⟩
  | .ok rows => manualEdges.foldl manualStep (rows.foldl fkStep ⟨[]⟩)

/-- Dijkstra frontier entry: reached node, accumulated distance, and the
path walked so far in reverse (current node first). -/
structure DEntry where
  node : String
  dist : Nat
  path : List String
deriving DecidableEq, Repr

/-- Remove a minimum-distance entry from the frontier (earliest minimum,
matching the deterministic tie-break of a binary-heap pop with insertion
counter as used by `networkx`'s Dijkstra on these small graphs). -/
def pickMin : List DEntry → Option (DEntry × List DEntry)
  | [] => none
  | x :: xs =>
    match pickMin xs with
    | none => some (x, [])
    | some (m, rest) => if x.dist ≤ m.dist then some (x, xs) else some (m, x :: rest)

/-- Fuel-driven Dijkstra loop: pop a minimum entry; return its path when it
reaches the target, skip it when already finalized, otherwise finalize the
node and relax its unvisited neighbours. -/
def dijkstraAux (g : SchemaGraph) (target : String) :
    Nat → List DEntry → List String → Option (List String)
  | 0, _, _ => none
  | fuel + 1, frontier, visited =>
    match pickMin frontier with
    | none => none
    | some (en, rest) =>
      if en.node = target then some en.path.reverse
      else if visited.contains en.node then dijkstraAux g target fuel rest visited
      else
        dijkstraAux g target fuel
          (rest ++ (neighborsOf g en.node).filterMap (fun vw =>
            if visited.contains vw.1 then none
            else some ⟨vw.1, en.dist + vw.2, vw.1 :: en.path⟩))
          (en.node :: visited)

/-- `nx.shortest_path(graph, source, target, weight='weight')`: `none` models
the `NetworkXNoPath` exception.  The fuel bounds the total number of pops,
which never exceeds the square bound on these finite graphs. -/
def dijkstra (g : SchemaGraph) (s t : String) : Option (List String) :=
  if s == t then some [s]
  else dijkstraAux g t ((g.edges.length + 1) * (g.edges.length + 1) + 1) [⟨s, 0, [s]⟩] []

/-- Error outcomes inside `find_connection_query`'s `try` block. -/
inductive PathErr where
  | noPath
  | keyError (s : String)
deriving DecidableEq, Repr

/-- The inner loop over a found path: look up each traversed edge and emit
its `JOIN <table> ON <condition>` fragment.  A missing edge is the Python
`KeyError` swallowed by the generic `except`. -/
def joinsForPath (g : SchemaGraph) : List String → Except PathErr (List String)
  | [] => .ok []
  | [_] => .ok []
  | a :: b :: rest =>
    match edgeBetween g a b with
    | none => .error (.keyError b)
    | some e =>
      match joinsForPath g (b :: rest) with
      | .error er => .error er
      | .ok js => .ok (("JOIN " ++ b ++ " ON " ++ e.onc) :: js)

/-- The outer loop of `find_connection_query`: one shortest path per target
(the anchor itself is skipped), collecting every join fragment. -/
def collectJoins (g : SchemaGraph) (start : String) : List String → Except PathErr (List String)
  | [] => .ok []
  | t :: ts =>
    if t == start then collectJoins g start ts
    else
      match dijkstra g start t with
      | none => .error .noPath
      | some p =>
        match joinsForPath g p with
        | .error e => .error e
        | .ok js =>
          match collectJoins g start ts with
          | .error e => .error e
          | .ok rest => .ok (js ++ rest)

/-- Anchor choice (`graph_manager.py` lines 97-100): `"patient"` when it is
among the valid tables, else the first valid table. -/
def anchorOf (valid : List String) : String :=
  if valid.contains "patient" then "patient" else valid.headD ""

/-- The `try` block of `find_connection_query`: run the pathfinding and
render `FROM <anchor>` plus the sorted, deduplicated join fragments, or the
textual error the Python `except` arms produce. -/
def fcqJoins (g : SchemaGraph) (valid : List String) : String :=
  match collectJoins g (anchorOf valid) valid with
  | .error .noPath => "No path found. These tables appear to be disconnected."
  | .error (.keyError s) => "Pathfinding error: KeyError " ++ s
  | .ok joins => "FROM " ++ anchorOf valid ++ "\n" ++ joinLines (sortStrings (dedupStr joins))

/-- `SchemaGraph.find_connection_query` (`graph_manager.py` lines 75-121).
Note the filter: requested tables absent from the graph are removed, and
only when fewer than two valid tables remain does the function return the
`Cannot connect` error naming the missing set. -/
def find_connection_query (g : SchemaGraph) (table_names : List String) : String :=
  if table_names.length < 2 then "Need at least 2 tables to find a connection."
  else if (table_names.filter (fun t => hasNode g t)).length < 2 then
    "Cannot connect. Tables not found in graph: " ++
      renderPySet (dedupStr (table_names.filter (fun t => !(hasNode g t))))
  else
    fcqJoins g (table_names.filter (fun t => hasNode g t))

/-! ## Agent workflow (`backend/src/agent.py`) -/

/-- A LangChain tool call: id, tool name, and keyword arguments (the code
reads only string-valued arguments, notably `"query"`). -/
structure ToolCall where
  id : String
  name : String
  args : List (String × String)
deriving DecidableEq, Repr

/-- The message kinds of the workflow state (`MessagesState`):
`HumanMessage`, `AIMessage` (with its `tool_calls` list) and `ToolMessage`
(with the executed tool's name). -/
inductive Message where
  | human (content : String)
  | ai (content : String) (tool_calls : List ToolCall)
  | tool (name : String) (content : String)
deriving DecidableEq, Repr

/-- Python `tool_call["args"].get("query", "")`-style lookup. -/
def lookupArg (args : List (String × String)) (key : String) : String :=
  match args.find? (fun p => p.fst == key) with
  | some p => p.snd
  | none => ""

/-- The read-only tools exempt from verification (`agent.py` lines 239-244). -/
def REASONING_TOOLS : List String :=
  ["sql_db_query_distinct_values", "sql_db_sample_rows",
   "sql_db_find_relevant_tables", "sql_db_schema",
   "sql_db_get_foreign_keys", "sql_db_get_column_info",
   "sql_db_find_table_connections"]

/-- The helper/research tools that trigger the forcing feedback
(`agent.py` lines 281-287). -/
def HELPER_TOOLS : List String :=
  ["sql_db_find_relevant_tables", "sql_db_find_table_connections",
   "sql_db_schema", "sql_db_get_foreign_keys", "sql_db_get_column_info"]

/-- The forcing feedback injected after a helper tool result
(`agent.py` line 291). -/
def researchFeedback (toolName : String) : String :=
  "SYSTEM FEEDBACK: Research tool '" ++ toolName ++
    "' complete. You have the schema info. NOW you must write and execute the 'sql_db_query' to get the actual data rows."

/-- The deterministic binary-data feedback (`agent.py` line 300). -/
def binaryFeedback : String :=
  "SYSTEM FEEDBACK: Binary data detected (b'\\x00...'). Retry using HEX(column) or BIN_TO_UUID(column)."

/-- The terminal best-effort message at the retry ceiling (`agent.py` line 328). -/
def maxRetriesMessage : String :=
  "Maximum retries reached. I will try to answer with the data I have."

/-- `SQLAgentGenerator.check_query_node` (`agent.py` lines 209-260).
`randHex` models `os.urandom(4).hex()` in the synthesized id.  The last
message is always an `AIMessage` when this node runs (the only edge into it
requires a tool-calling response); a non-AI last message would raise
`AttributeError` on `.tool_calls` in Python, modelled as `.error`. -/
def check_query_node (randHex : String) (messages : List Message) : Except String (List Message) :=
  match messages.getLast? with
  | none => .error "IndexError: list index out of range"
  | some (Message.ai content tcs) =>
    match tcs with
    | [] =>
      let c := trimStr content
      if ["SELECT", "INSERT", "UPDATE", "DELETE"].any (fun kw => strStartsWith (upperStr c) kw) then
        let q := if strContains (upperStr c) "LIMIT" then c else c ++ " LIMIT 10"
        .ok [Message.ai "" [⟨"manual_sql_fix_" ++ randHex, "sql_db_query", [("query", q)]⟩]]
      else .ok []
    | tc :: _ =>
      if REASONING_TOOLS.contains tc.name then .ok []
      else if tc.name == "sql_db_query" then
        let q := lookupArg tc.args "query"
        if strContains (upperStr q) "LIMIT" then .ok []
        else .ok [Message.ai "" [⟨tc.id, "sql_db_query", [("query", q ++ " LIMIT 10")]⟩]]
      else .ok []
  | some _ => .error "AttributeError: tool_calls"

/-- Retry counter of `validate_answer_node` (`agent.py` line 325): the
number of `HumanMessage`s whose content contains the uppercase substring
`"FEEDBACK"`.  NOTE: the validator's own injections read
`"Validator Feedback: ..."` and do not match this case-sensitive test. -/
def retryCount (messages : List Message) : Nat :=
  (messages.filter (fun m =>
    match m with
    | Message.human c => strContains c "FEEDBACK"
    | _ => false)).length

/-- Stages b-d of `validate_answer_node` once the helper-tool guard has
fallen through: ignore non-`sql_db_query` results, then the deterministic
binary-marker guard, then the LLM-validator branch.  `validator` is the
opaque LLM validation response's text. -/
def validateSqlResult (validator : String) (messages : List Message)
    (lname lcontent : String) : Except String (List Message) :=
  if lname != "sql_db_query" then .ok []
  else if strContains lcontent "b'\\" || strContains (lowerStr lcontent) "bytearray" then
    .ok [Message.human binaryFeedback]
  else if strContains validator "STATUS: RETRY" then
    if 3 ≤ retryCount messages then
      .ok [Message.ai maxRetriesMessage []]
    else
      .ok [Message.human ("Validator Feedback: " ++ trimStr (afterLastMarker "FEEDBACK:" validator))]
  else .ok [Message.ai validator []]

/-- `SQLAgentGenerator.validate_answer_node` (`agent.py` lines 262-333).
When the last message is a `ToolMessage` and the history has at least two
entries, Python reads `messages[-2].tool_calls`; only an `AIMessage` has
that attribute, so any other penultimate message raises `AttributeError`
(reachable: a response with two tool calls yields two consecutive
`ToolMessage`s).  The backward scans that build the validation prompt do
not affect the returned messages, so the LLM call is represented by the
`validator` text alone. -/
def validate_answer_node (validator : String) (messages : List Message) : Except String (List Message) :=
  match messages.getLast? with
  | none => .error "IndexError: list index out of range"
  | some (Message.tool lname lcontent) =>
    if 2 ≤ messages.length then
      match messages.dropLast.getLast? with
      | some (Message.ai _ (tc :: _)) =>
        if HELPER_TOOLS.contains tc.name then
          .ok [Message.human (researchFeedback tc.name)]
        else validateSqlResult validator messages lname lcontent
      | some (Message.ai _ []) => validateSqlResult validator messages lname lcontent
      | some _ => .error "AttributeError: tool_calls"
      | none => .error "IndexError: list index out of range"
    else validateSqlResult validator messages lname lcontent
  | some _ => .ok []

/-- The Python error raised when a local is read before assignment.  In
`generate_final_answer_node` the `user_question = "Unknown"` default sits
inside the docstring (`agent.py` lines 342-344), so a history with no
qualifying `HumanMessage` leaves `user_question` unassigned. -/
def unboundLocalErr : String :=
  "UnboundLocalError: local variable user_question referenced before assignment"

/-- `SQLAgentGenerator.generate_final_answer_node` (`agent.py` lines
335-365).  It scans backward for the most recent `HumanMessage` not
starting with `"SYSTEM"`; if none exists the f-string raises
`UnboundLocalError`.  `finalResp` is the opaque final LLM answer. -/
def generate_final_answer_node (finalResp : String) (messages : List Message) : Except String (List Message) :=
  match messages.reverse.find? (fun m =>
      match m with
      | Message.human c => !(strStartsWith c "SYSTEM")
      | _ => false) with
  | none => .error unboundLocalErr
  | some _ => .ok [Message.ai finalResp []]

/-- `SQLAgentGenerator.should_continue` (`agent.py` lines 367-374): end the
turn when the (always-AI) response of `generate_query` carries no tool
call, otherwise verify it. -/
def should_continue (messages : List Message) : String :=
  match messages.getLast? with
  | some (Message.ai _ (_ :: _)) => "check_query"
  | _ => "end"

/-- `SQLAgentGenerator.should_retry` (`agent.py` lines 376-388): loop back
to `generate_query` on an injected feedback `HumanMessage`, otherwise go to
the final-answer node (also on ambiguous validator output). -/
def should_retry (messages : List Message) : String :=
  match messages.getLast? with
  | some (Message.human c) =>
    if strContains c "FEEDBACK" || strContains c "Validator" then "generate_query"
    else "generate_final_answer"
  | _ => "generate_final_answer"

/-- The nodes of the compiled state graph (`agent.py` lines 390-417);
`done` is LangGraph's `END`. -/
inductive Node where
  | list_tables
  | call_get_schema
  | get_schema
  | generate_query
  | check_query
  | run_tools
  | validate_answer
  | generate_final_answer
  | done
deriving DecidableEq, Repr

/-- The opaque external capabilities of one run: the LLM responses of each
LLM-calling node (as content text plus tool calls), the tool executor, and
the hex digits `os.urandom` supplies to `check_query_node`. -/
structure Oracle where
  schemaResponse : List Message → String × List ToolCall
  queryResponse : List Message → String × List ToolCall
  toolResult : ToolCall → String
  validatorResponse : List Message → String
  finalResponse : List Message → String
  randHex : String

/-- `ToolNode`: execute every tool call of the last message, appending one
`ToolMessage` per call, in order. -/
def tool_node (toolResult : ToolCall → String) (messages : List Message) : List Message :=
  match messages.getLast? with
  | some (Message.ai _ tcs) => tcs.map (fun tc => Message.tool tc.name (toolResult tc))
  | _ => []

/-- One super-step of the compiled graph: run the node the configuration
points at, append its messages, and follow the (conditional) edge
(`agent.py` lines 390-417). -/
def stepConfig (o : Oracle) : Node × List Message → Except String (Node × List Message)
  | (.list_tables, m) => .ok (.call_get_schema, m)
  | (.call_get_schema, m) =>
    let r := o.schemaResponse m
    .ok (.get_schema, m ++ [Message.ai r.1 r.2])
  | (.get_schema, m) => .ok (.generate_query, m ++ tool_node o.toolResult m)
  | (.generate_query, m) =>
    let r := o.queryResponse m
    let m2 := m ++ [Message.ai r.1 r.2]
    if should_continue m2 == "end" then .ok (.done, m2) else .ok (.check_query, m2)
  | (.check_query, m) =>
    (check_query_node o.randHex m).map (fun app => (.run_tools, m ++ app))
  | (.run_tools, m) => .ok (.validate_answer, m ++ tool_node o.toolResult m)
  | (.validate_answer, m) =>
    (validate_answer_node (o.validatorResponse m) m).map (fun app =>
      let m2 := m ++ app
      if should_retry m2 == "generate_query" then (.generate_query, m2)
      else (.generate_final_answer, m2))
  | (.generate_final_answer, m) =>
    (generate_final_answer_node (o.finalResponse m) m).map (fun app => (.done, m ++ app))
  | (.done, m) => .ok (.done, m)

/-- Iterate `stepConfig` a fixed number of super-steps. -/
def runSteps (o : Oracle) : Nat → Node × List Message → Except String (Node × List Message)
  | 0, cfg => .ok cfg
  | n + 1, cfg =>
    match stepConfig o cfg with
    | .error e => .error e
    | .ok cfg2 => runSteps o n cfg2

/-- The extraction in `run`'s streaming loop (`agent.py` lines 441-446):
remember the latest `AIMessage` content that has no tool calls and no
`"STATUS:"` marker. -/
def extractFinal (m : List Message) (acc : String) : String :=
  match m.getLast? with
  | some (Message.ai c []) => if strContains c "STATUS:" then acc else c
  | _ => acc

/-- `SQLAgentGenerator.run` (`agent.py` lines 419-451): walk the graph,
tracking the final answer text; any exception escaping the workflow is
caught and turned into the apologetic error string; fuel exhaustion is the
`recursion_limit` guard (`GraphRecursionError`, also caught). -/
def runLoop (o : Oracle) : Nat → Node × List Message → String → String
  | 0, _, _ => "I encountered an error: GraphRecursionError"
  | fuel + 1, (n, m), acc =>
    if n = Node.done then acc
    else
      match stepConfig o (n, m) with
      | .error e => "I encountered an error: " ++ e
      | .ok (n2, m2) => runLoop o fuel (n2, m2) (extractFinal m2 acc)

/-! ## Derived predicates and concrete instances -/

instance instDecEqExcept {e a : Type} [DecidableEq e] [DecidableEq a] :
    DecidableEq (Except e a) := fun x y =>
  match x, y with
  | .ok u, .ok v =>
    if h : u = v then .isTrue (by rw [h]) else .isFalse (fun hc => h (Except.ok.inj hc))
  | .error u, .error v =>
    if h : u = v then .isTrue (by rw [h]) else .isFalse (fun hc => h (Except.error.inj hc))
  | .ok _, .error _ => .isFalse (fun hc => Except.noConfusion hc)
  | .error _, .ok _ => .isFalse (fun hc => Except.noConfusion hc)

/-- Adjacency as the success of the `graph[a][b]` lookup. -/
def adjB (g : SchemaGraph) (a b : String) : Bool :=
  (edgeBetween g a b).isSome

/-- Invariant of a Dijkstra frontier entry: the stored (reversed) path
starts at the entry's node and walks along edges of the graph. -/
def entryOK (g : SchemaGraph) (en : DEntry) : Prop :=
  (∃ rest, en.path = en.node :: rest) ∧
    List.Chain' (fun a b => adjB g a b = true) en.path

/-- Is this message a `ToolMessage` produced by the execution tool? -/
def isSqlResultB : Message → Bool
  | Message.tool n _ => n == "sql_db_query"
  | _ => false

/-- Shape of the message preceding an execution-tool result under which
`validate_answer_node` reaches its binary-marker guard: absent, or an
`AIMessage` with no tool calls or whose first tool call is not a helper
tool. -/
def penultOkB : Option Message → Bool
  | none => true
  | some (Message.ai _ []) => true
  | some (Message.ai _ (tc :: _)) => !(HELPER_TOOLS.contains tc.name)
  | some _ => false

/-- The schema graph built when foreign-key introspection succeeds with no
rows: exactly the seven manually curated edges. -/
def manualOnlyGraph : SchemaGraph :=
  build_graph (Except.ok [])

/-- A reachable history for the retry-ceiling check: a user turn that has
already looped three times on validator feedback, followed by the fourth
executed query and its result. -/
def c1History : List Message :=
  [Message.human "list patients",
   Message.human "Validator Feedback: use table patient",
   Message.human "Validator Feedback: add a LIMIT clause",
   Message.human "Validator Feedback: wrong join",
   Message.ai "" [⟨"t1", "sql_db_query", [("query", "SELECT 1 LIMIT 10")]⟩],
   Message.tool "sql_db_query" "[(1,)]"]

/-- A reachable history in which the model proposed two execution calls at
once: `ToolNode` appended two `ToolMessage`s and the last one carries a
binary-escape marker. -/
def c6History : List Message :=
  [Message.ai "" [⟨"a", "sql_db_query", [("query", "SELECT x LIMIT 10")]⟩,
                  ⟨"b", "sql_db_query", [("query", "SELECT y LIMIT 10")]⟩],
   Message.tool "sql_db_query" "[(1,)]",
   Message.tool "sql_db_query" "b'\\x01'"]

/-- An oracle describing a run in which the model first asks for column
info and, after the forcing feedback, answers in free text without ever
calling the execution tool. -/
def c3Oracle : Oracle where
  schemaResponse := fun _ => ("", [⟨"s1", "sql_db_schema", [("table_names", "patient")]⟩])
  queryResponse := fun m =>
    if m.length == 3 then ("", [⟨"q1", "sql_db_get_column_info", [("table_name", "patient")]⟩])
    else ("The patient table has columns patient_id and name.", [])
  toolResult := fun tc =>
    if tc.name == "sql_db_schema" then "CREATE TABLE patient (patient_id BINARY(16), name TEXT)"
    else "patient_id: BINARY(16); name: TEXT"
  validatorResponse := fun _ => "STATUS: VALID"
  finalResponse := fun _ => "done"
  randHex := "abcd"

/-- The final message history of the `c3Oracle` run. -/
def c3FinalMsgs : List Message :=
  [Message.human "List the patients",
   Message.ai "" [⟨"s1", "sql_db_schema", [("table_names", "patient")]⟩],
   Message.tool "sql_db_schema" "CREATE TABLE patient (patient_id BINARY(16), name TEXT)",
   Message.ai "" [⟨"q1", "sql_db_get_column_info", [("table_name", "patient")]⟩],
   Message.tool "sql_db_get_column_info" "patient_id: BINARY(16); name: TEXT",
   Message.human (researchFeedback "sql_db_get_column_info"),
   Message.ai "The patient table has columns patient_id and name." []]

/-- An oracle whose `generate_query` response is raw SQL text with no tool
call. -/
def c5Oracle : Oracle where
  schemaResponse := fun _ => ("", [])
  queryResponse := fun _ => ("SELECT name FROM patient", [])
  toolResult := fun _ => ""
  validatorResponse := fun _ => "STATUS: VALID"
  finalResponse := fun _ => "done"
  randHex := "abcd"

/-- History at the `generate_query` node for the raw-SQL scenario. -/
def c5History : List Message :=
  [Message.human "get patient names",
   Message.ai "" [⟨"s1", "sql_db_schema", [("table_names", "patient")]⟩],
   Message.tool "sql_db_schema" "CREATE TABLE patient (name TEXT)"]

/-! ## Helper lemmas -/

theorem chStarts_mono (pat l1 l2 : List Char) (h : chStarts pat l1 = true) :
    chStarts pat (l1 ++ l2) = true := by
  induction pat generalizing l1 with
  | nil => simp [chStarts]
  | cons a as ih =>
    cases l1 with
    | nil => simp [chStarts] at h
    | cons b bs =>
      simp only [chStarts, Bool.and_eq_true] at h
      simp only [List.cons_append, chStarts, Bool.and_eq_true]
      exact ⟨h.1, ih bs h.2⟩

theorem chContains_nil (l : List Char) : chContains [] l = true := by
  induction l with
  | nil => simp [chContains, chStarts]
  | cons c rest ih => simp [chContains, chStarts, ih]

theorem chContains_mono (pat l1 l2 : List Char) (h : chContains pat l1 = true) :
    chContains pat (l1 ++ l2) = true := by
  induction l1 with
  | nil =>
    cases pat with
    | nil => simpa using chContains_nil l2
    | cons p ps => simp [chContains, chStarts] at h
  | cons c rest ih =>
    simp only [chContains, Bool.or_eq_true] at h
    rcases h with h | h
    · simp only [List.cons_append, chContains, Bool.or_eq_true]
      exact Or.inl (by simpa using chStarts_mono pat (c :: rest) l2 h)
    · simp only [List.cons_append, chContains, Bool.or_eq_true]
      exact Or.inr (ih h)

theorem strContains_append_left (s t pat : String) (h : strContains s pat = true) :
    strContains (s ++ t) pat = true := by
  unfold strContains at *
  rw [String.data_append]
  exact chContains_mono _ _ _ h

theorem dedupAux_mem (a : String) :
    ∀ (l seen : List String), a ∈ dedupAux seen l ↔ (a ∈ l ∧ a ∉ seen) := by
  intro l
  induction l with
  | nil => intro seen; simp [dedupAux]
  | cons x xs ih =>
    intro seen
    by_cases hx : seen.contains x = true
    · have hxs : x ∈ seen := by simpa using hx
      rw [dedupAux, if_pos hx, ih]
      constructor
      · rintro ⟨h1, h2⟩; exact ⟨List.mem_cons_of_mem _ h1, h2⟩
      · rintro ⟨h1, h2⟩
        rcases List.mem_cons.mp h1 with rfl | h1
        · exact absurd hxs h2
        · exact ⟨h1, h2⟩
    · have hxs : x ∉ seen := fun hmem => hx (by simpa using hmem)
      rw [dedupAux, if_neg hx]
      constructor
      · intro hmem
        rcases List.mem_cons.mp hmem with rfl | hmem
        · exact ⟨List.mem_cons_self _ _, hxs⟩
        · rcases (ih (x :: seen)).mp hmem with ⟨h1, h2⟩
          exact ⟨List.mem_cons_of_mem _ h1, fun hc => h2 (List.mem_cons_of_mem _ hc)⟩
      · rintro ⟨h1, h2⟩
        rcases List.mem_cons.mp h1 with rfl | h1
        · exact List.mem_cons_self _ _
        · by_cases hax : a = x
          · subst hax; exact List.mem_cons_self _ _
          · refine List.mem_cons_of_mem _ ((ih (x :: seen)).mpr ⟨h1, ?_⟩)
            intro hc
            rcases List.mem_cons.mp hc with h | h
            · exact hax h
            · exact h2 h

theorem dedupStr_mem (a : String) (l : List String) : a ∈ dedupStr l ↔ a ∈ l := by
  unfold dedupStr
  simpa using dedupAux_mem a l []

theorem addEdge_pres (P : Edge → Prop) (g : SchemaGraph) (t1 t2 onc : String) (w : Nat)
    (hg : ∀ e ∈ g.edges, P e) (hw : P ⟨t1, t2, onc, w⟩) :
    ∀ e ∈ (addEdge g t1 t2 onc w).edges, P e := by
  intro e he
  unfold addEdge at he
  by_cases hc : g.edges.any (fun e => sameEnds e t1 t2) = true
  · simp only [hc, if_pos] at he
    rcases List.mem_map.mp he with ⟨x, hx, hxe⟩
    by_cases hs : sameEnds x t1 t2 = true
    · rw [if_pos hs] at hxe; exact hxe ▸ hw
    · rw [if_neg hs] at hxe; exact hxe ▸ hg x hx
  · simp only [hc, if_neg, Bool.false_eq_true] at he
    rcases List.mem_append.mp he with h | h
    · exact hg e h
    · rcases List.mem_singleton.mp h with rfl; exact hw

theorem fkFold_pres : ∀ (rows : List FKRow) (g : SchemaGraph),
    (∀ e ∈ g.edges, 1 ≤ e.weight) →
    ∀ e ∈ (rows.foldl fkStep g).edges, 1 ≤ e.weight := by
  intro rows
  induction rows with
  | nil => intro g hg; exact hg
  | cons r rs ih =>
    intro g hg
    refine ih _ (addEdge_pres _ _ _ _ _ _ hg ?_)
    show 1 ≤ fkWeight r.table r.refTable
    unfold fkWeight
    split <;> omega

theorem manualFold_pres : ∀ (ts : List (String × String × String × Nat)) (g : SchemaGraph),
    (∀ t ∈ ts, 1 ≤ t.2.2.2) →
    (∀ e ∈ g.edges, 1 ≤ e.weight) →
    ∀ e ∈ (ts.foldl manualStep g).edges, 1 ≤ e.weight := by
  intro ts
  induction ts with
  | nil => intro g _ hg; exact hg
  | cons t ts ih =>
    intro g hts hg
    refine ih _ (fun x hx => hts x (List.mem_cons_of_mem _ hx))
      (addEdge_pres _ _ _ _ _ _ hg ?_)
    exact hts t (List.mem_cons_self _ _)

/-! ## Dijkstra path validity -/

theorem sameEnds_comm (e : Edge) (x y : String) : sameEnds e x y = sameEnds e y x := by
  unfold sameEnds
  exact Bool.or_comm _ _

theorem edgeBetween_comm (g : SchemaGraph) (x y : String) :
    edgeBetween g x y = edgeBetween g y x := by
  unfold edgeBetween
  congr 1
  funext e
  exact sameEnds_comm e x y

theorem adjB_symm (g : SchemaGraph) (a b : String) (h : adjB g a b = true) :
    adjB g b a = true := by
  unfold adjB at *
  rwa [edgeBetween_comm]

theorem neighborsOf_adj (g : SchemaGraph) (u v : String) (w : Nat)
    (h : (v, w) ∈ neighborsOf g u) : adjB g u v = true := by
  unfold neighborsOf at h
  rcases List.mem_filterMap.mp h with ⟨e, he, hfe⟩
  have hs : sameEnds e u v = true := by
    by_cases h1 : (e.a == u) = true
    · rw [if_pos h1] at hfe
      injection hfe with h2
      have hb : e.b = v := congrArg Prod.fst h2
      have ha : e.a = u := by simpa using h1
      simp [sameEnds, ha, hb]
    · rw [if_neg h1] at hfe
      by_cases h2 : (e.b == u) = true
      · rw [if_pos h2] at hfe
        injection hfe with h3
        have ha : e.a = v := congrArg Prod.fst h3
        have hb : e.b = u := by simpa using h2
        simp [sameEnds, ha, hb]
      · rw [if_neg h2] at hfe; cases hfe
  unfold adjB edgeBetween
  rw [List.find?_isSome]
  exact ⟨e, he, hs⟩

theorem pickMin_mem : ∀ (l : List DEntry) (x : DEntry) (rest : List DEntry),
    pickMin l = some (x, rest) → x ∈ l ∧ ∀ y ∈ rest, y ∈ l := by
  intro l
  induction l with
  | nil => intro x rest h; simp [pickMin] at h
  | cons a as ih =>
    intro x rest h
    cases hm : pickMin as with
    | none =>
      simp only [pickMin, hm] at h
      injection h with h1
      have hx : x = a := (congrArg Prod.fst h1).symm
      have hr : rest = [] := (congrArg Prod.snd h1).symm
      subst hx; subst hr
      exact ⟨List.mem_cons_self _ _, by simp⟩
    | some mr =>
      obtain ⟨m, r⟩ := mr
      simp only [pickMin, hm] at h
      have hmr := ih m r hm
      by_cases hd : a.dist ≤ m.dist
      · rw [if_pos hd] at h
        injection h with h1
        have hx : x = a := (congrArg Prod.fst h1).symm
        have hr : rest = as := (congrArg Prod.snd h1).symm
        subst hx; subst hr
        exact ⟨List.mem_cons_self _ _, fun y hy => List.mem_cons_of_mem _ hy⟩
      · rw [if_neg hd] at h
        injection h with h1
        have hx : x = m := (congrArg Prod.fst h1).symm
        have hr : rest = a :: r := (congrArg Prod.snd h1).symm
        subst hx; subst hr
        refine ⟨List.mem_cons_of_mem _ hmr.1, fun y hy => ?_⟩
        rcases List.mem_cons.mp hy with rfl | hy
        · exact List.mem_cons_self _ _
        · exact List.mem_cons_of_mem _ (hmr.2 y hy)

theorem dijkstraAux_chain (g : SchemaGraph) (target : String) :
    ∀ (fuel : Nat) (frontier : List DEntry) (visited : List String),
    (∀ en ∈ frontier, entryOK g en) →
    ∀ p, dijkstraAux g target fuel frontier visited = some p →
    List.Chain' (fun a b => adjB g a b = true) p := by
  intro fuel
  induction fuel with
  | zero => intro frontier visited _ p h; simp [dijkstraAux] at h
  | succ n ih =>
    intro frontier visited hinv p h
    cases hpm : pickMin frontier with
    | none =>
      simp only [dijkstraAux, hpm] at h
      exact Option.noConfusion h
    | some er =>
      obtain ⟨en, rest⟩ := er
      simp only [dijkstraAux, hpm] at h
      have hmem := pickMin_mem frontier en rest hpm
      have hok := hinv en hmem.1
      by_cases ht : en.node = target
      · rw [if_pos ht] at h
        injection h with h1
        subst h1
        have hchain : List.Chain' (flip (fun a b => adjB g a b = true)) en.path :=
          List.Chain'.imp (fun a b hab => adjB_symm g a b hab) hok.2
        exact List.chain'_reverse.mpr hchain
      · rw [if_neg ht] at h
        by_cases hv : visited.contains en.node = true
        · rw [if_pos hv] at h
          exact ih rest visited (fun y hy => hinv y (hmem.2 y hy)) p h
        · rw [if_neg hv] at h
          refine ih _ _ ?_ p h
          intro y hy
          rcases List.mem_append.mp hy with hy | hy
          · exact hinv y (hmem.2 y hy)
          · rcases List.mem_filterMap.mp hy with ⟨vw, hvw, hfy⟩
            by_cases hvis : visited.contains vw.1 = true
            · rw [if_pos hvis] at hfy; cases hfy
            · rw [if_neg hvis] at hfy
              injection hfy with h2
              subst h2
              obtain ⟨rest', hrest'⟩ := hok.1
              constructor
              · exact ⟨en.path, rfl⟩
              · show List.Chain' _ (vw.1 :: en.path)
                rw [hrest', List.chain'_cons]
                refine ⟨?_, hrest' ▸ hok.2⟩
                exact adjB_symm g _ _
                  (neighborsOf_adj g en.node vw.1 vw.2 (by
                    obtain ⟨v, w⟩ := vw
                    exact hvw))

theorem dijkstra_chain (g : SchemaGraph) (s t : String) (p : List String)
    (h : dijkstra g s t = some p) :
    List.Chain' (fun a b => adjB g a b = true) p := by
  unfold dijkstra at h
  by_cases hst : (s == t) = true
  · rw [if_pos hst] at h
    injection h with h1
    subst h1
    exact List.chain'_singleton s
  · rw [if_neg hst] at h
    refine dijkstraAux_chain g t _ _ _ ?_ p h
    intro en hen
    rcases List.mem_singleton.mp hen with rfl
    exact ⟨⟨[], rfl⟩, List.chain'_singleton s⟩

theorem joinsForPath_ok (g : SchemaGraph) :
    ∀ (p : List String), List.Chain' (fun a b => adjB g a b = true) p →
    ∃ js, joinsForPath g p = .ok js := by
  intro p
  induction p with
  | nil => intro _; exact ⟨[], rfl⟩
  | cons a tail ih =>
    intro hchain
    cases tail with
    | nil => exact ⟨[], rfl⟩
    | cons b rest =>
      rw [List.chain'_cons] at hchain
      have hup : (edgeBetween g a b).isSome = true := hchain.1
      rcases Option.isSome_iff_exists.mp hup with ⟨e, he⟩
      rcases ih hchain.2 with ⟨js, hjs⟩
      refine ⟨("JOIN " ++ b ++ " ON " ++ e.onc) :: js, ?_⟩
      simp only [joinsForPath, he, hjs]

theorem collectJoins_ok (g : SchemaGraph) (start : String) :
    ∀ (l : List String), (∀ t ∈ l, (dijkstra g start t).isSome = true) →
    ∃ js, collectJoins g start l = .ok js := by
  intro l
  induction l with
  | nil => intro _; exact ⟨[], rfl⟩
  | cons t ts ih =>
    intro h
    rcases ih (fun x hx => h x (List.mem_cons_of_mem _ hx)) with ⟨js2, hjs2⟩
    by_cases hts : (t == start) = true
    · refine ⟨js2, ?_⟩
      simp only [collectJoins]
      rw [if_pos hts]
      exact hjs2
    · have hd := h t (List.mem_cons_self _ _)
      rcases Option.isSome_iff_exists.mp hd with ⟨p, hp⟩
      rcases joinsForPath_ok g p (dijkstra_chain g start t p hp) with ⟨js1, hjs1⟩
      refine ⟨js1 ++ js2, ?_⟩
      simp only [collectJoins]
      rw [if_neg hts]
      simp only [hp, hjs1, hjs2]

/-! ## Claims -/

/-- Claim C8: every edge of the schema graph produced by `build_graph` has
weight at least 1 (the model's unit for the source's 1.0): discovered
foreign-key edges get weight `fkWeight` (10 when an endpoint name contains
the user/audit substring `"user"`, else 1) and the manually curated edges
carry their fixed authored weights, all of which are 1 or 10.  The
invariant holds for every introspection outcome, and the embedding exposes
no mutation of the graph after construction. -/
theorem claim_c8 (res : Except String (List FKRow)) (e : Edge)
    (he : e ∈ (build_graph res).edges) : 1 ≤ e.weight := by
  cases res with
  | error err => simp [build_graph] at he
  | ok rows =>
    exact manualFold_pres manualEdges _ (by decide)
      (fkFold_pres rows ⟨[]⟩ (by simp)) e he

/-- Witness for C8: a concrete introspection outcome and a concrete edge of
the resulting graph. -/
theorem claim_c8_witness :
    (⟨"patient", "map_patient_metrics",
      "patient.patient_id = map_patient_metrics.patient_id", 1⟩ : Edge) ∈
        (build_graph (Except.ok [])).edges ∧
    1 ≤ (⟨"patient", "map_patient_metrics",
      "patient.patient_id = map_patient_metrics.patient_id", 1⟩ : Edge).weight :=
  ⟨by decide, claim_c8 (Except.ok []) _ (by decide)⟩

/-- Claim C9: `SchemaGraph` construction is total — when the foreign-key
introspection query raises, `_build_graph` catches the exception and
completes with a graph containing no edges at all (the manual edges, added
inside the same protected block, are also skipped), and every subsequent
`find_connection_query` call on 2 or more tables returns the
`Cannot connect. Tables not found in graph` error string instead of
raising. -/
theorem claim_c9 (err : String) (names : List String) (h2 : 2 ≤ names.length) :
    (build_graph (Except.error err)).edges = [] ∧
    ∃ rest, find_connection_query (build_graph (Except.error err)) names =
      "Cannot connect. Tables not found in graph: " ++ rest := by
  refine ⟨rfl, ?_⟩
  have hfalse : ∀ t : String, hasNode (build_graph (Except.error err)) t = false := by
    intro t; rfl
  have hfilter : ∀ l : List String,
      l.filter (fun t => hasNode (build_graph (Except.error err)) t) = [] := by
    intro l
    induction l with
    | nil => rfl
    | cons x xs ih => simp [List.filter_cons, hfalse x, ih]
  refine ⟨renderPySet (dedupStr (names.filter
    (fun t => !(hasNode (build_graph (Except.error err)) t)))), ?_⟩
  unfold find_connection_query
  rw [if_neg (by omega : ¬ names.length < 2), hfilter names,
    if_pos (by decide : ([] : List String).length < 2)]

/-- Witness for C9 at a concrete error and table list. -/
theorem claim_c9_witness :
    2 ≤ (["a", "b"] : List String).length ∧
    ∃ rest, find_connection_query (build_graph (Except.error "boom")) ["a", "b"] =
      "Cannot connect. Tables not found in graph: " ++ rest :=
  ⟨by decide, (claim_c9 "boom" ["a", "b"] (by decide)).2⟩

/-- Claim C2 counterexample: with two known tables and one unknown table,
`find_connection_query` does NOT return an error naming the missing table;
it silently drops `"zzz_missing"` and returns a partial join clause over
the known tables, contradicting the claim. -/
theorem claim_c2_counterexample :
    find_connection_query manualOnlyGraph ["patient", "patient_score", "zzz_missing"] =
      "FROM patient\nJOIN patient_score ON patient.patient_id = patient_score.patient_id" ∧
    strContains (find_connection_query manualOnlyGraph
      ["patient", "patient_score", "zzz_missing"]) "zzz_missing" = false ∧
    strStartsWith (find_connection_query manualOnlyGraph
      ["patient", "patient_score", "zzz_missing"]) "FROM " = true := by
  refine ⟨by decide, by decide, by decide⟩

/-- Claim C2 corrected: only when FEWER THAN TWO of the requested tables
are present in the graph does `find_connection_query` return the error
string, and that error names exactly the (deduplicated) missing tables;
with at least two known tables the unknown ones are silently dropped (see
the counterexample). -/
theorem claim_c2_amended (g : SchemaGraph) (names : List String)
    (h2 : 2 ≤ names.length)
    (hfew : (names.filter (fun t => hasNode g t)).length < 2) :
    find_connection_query g names =
      "Cannot connect. Tables not found in graph: " ++
        renderPySet (dedupStr (names.filter (fun t => !(hasNode g t)))) ∧
    ∀ t, t ∈ dedupStr (names.filter (fun t => !(hasNode g t))) ↔
      (t ∈ names ∧ hasNode g t = false) := by
  constructor
  · unfold find_connection_query
    rw [if_neg (by omega : ¬ names.length < 2), if_pos hfew]
  · intro t
    rw [dedupStr_mem, List.mem_filter]
    simp

/-- Witness for the corrected C2 at a concrete graph and table list. -/
theorem claim_c2_witness :
    2 ≤ (["patient", "zzz"] : List String).length ∧
    ((["patient", "zzz"] : List String).filter
      (fun t => hasNode manualOnlyGraph t)).length < 2 ∧
    (find_connection_query manualOnlyGraph ["patient", "zzz"] =
      "Cannot connect. Tables not found in graph: " ++
        renderPySet (dedupStr ((["patient", "zzz"] : List String).filter
          (fun t => !(hasNode manualOnlyGraph t)))) ∧
    ∀ t, t ∈ dedupStr ((["patient", "zzz"] : List String).filter
        (fun t => !(hasNode manualOnlyGraph t))) ↔
      (t ∈ (["patient", "zzz"] : List String) ∧ hasNode manualOnlyGraph t = false)) :=
  ⟨by decide, by decide, claim_c2_amended manualOnlyGraph _ (by decide) (by decide)⟩

/-- Claim C1 (evidence for the code bug): on a reachable history that
already contains three validator feedback injections, a further validator
RETRY makes `validate_answer_node` inject a FOURTH feedback message rather
than the terminal maximum-retries message, because `retryCount` matches
only the uppercase substring `"FEEDBACK"` while the injected messages read
`"Validator Feedback: ..."` — the count stays 0. -/
theorem claim_c1_fourth_retry_feedback :
    validate_answer_node "STATUS: RETRY\nFEEDBACK: still wrong" c1History =
      .ok [Message.human "Validator Feedback: still wrong"] ∧
    retryCount c1History = 0 ∧
    validate_answer_node "STATUS: RETRY\nFEEDBACK: still wrong" c1History ≠
      .ok [Message.ai maxRetriesMessage []] := by
  refine ⟨by decide, by decide, by decide⟩

/-- Claim C4: for every list of 2 or more table names that are all present
in the schema graph and all reachable from the anchor, the string returned
by `find_connection_query` begins with `"FROM "` followed by the anchor,
and the anchor is `"patient"` whenever `"patient"` is among the input
tables and otherwise the first table in input order.  Reachability is
expressed as success of the embedded weighted shortest-path search. -/
theorem claim_c4 (g : SchemaGraph) (ts : List String)
    (h2 : 2 ≤ ts.length)
    (hall : ∀ t ∈ ts, hasNode g t = true)
    (hreach : ∀ t ∈ ts, (dijkstra g (anchorOf ts) t).isSome = true) :
    ∃ rest, find_connection_query g ts = "FROM " ++ anchorOf ts ++ "\n" ++ rest ∧
      anchorOf ts = (if ts.contains "patient" then "patient" else ts.headD "") := by
  have hfilter : ts.filter (fun t => hasNode g t) = ts := List.filter_eq_self.mpr hall
  rcases collectJoins_ok g (anchorOf ts) ts hreach with ⟨js, hjs⟩
  refine ⟨joinLines (sortStrings (dedupStr js)), ?_, rfl⟩
  unfold find_connection_query
  rw [if_neg (by omega : ¬ ts.length < 2), hfilter,
    if_neg (by omega : ¬ ts.length < 2)]
  unfold fcqJoins
  simp only [hjs]

/-- Witness for C4 on the manual-edges graph: patient is among the inputs
and both tables are reachable. -/
theorem claim_c4_witness :
    2 ≤ (["lob", "patient"] : List String).length ∧
    (∀ t ∈ (["lob", "patient"] : List String), hasNode manualOnlyGraph t = true) ∧
    (∀ t ∈ (["lob", "patient"] : List String),
      (dijkstra manualOnlyGraph (anchorOf ["lob", "patient"]) t).isSome = true) ∧
    ∃ rest, find_connection_query manualOnlyGraph ["lob", "patient"] =
        "FROM " ++ anchorOf ["lob", "patient"] ++ "\n" ++ rest ∧
      anchorOf ["lob", "patient"] =
        (if (["lob", "patient"] : List String).contains "patient" then "patient"
         else (["lob", "patient"] : List String).headD "") :=
  ⟨by decide, by decide, by decide,
   claim_c4 manualOnlyGraph ["lob", "patient"] (by decide) (by decide) (by decide)⟩

/-- Claim C7: for a pending `sql_db_query` proposal (the first tool call of
the latest AI message), `check_query_node` appends a rewritten call with
`" LIMIT 10"` added when the proposed statement has no row cap, and appends
nothing — leaving the pending proposal untouched — when a cap is present;
the rewritten call keeps the original invocation id. -/
theorem claim_c7 (randHex : String) (ms : List Message) (ac : String)
    (tc : ToolCall) (tcs : List ToolCall) (hname : tc.name = "sql_db_query") :
    check_query_node randHex (ms ++ [Message.ai ac (tc :: tcs)]) =
      (if strContains (upperStr (lookupArg tc.args "query")) "LIMIT" then Except.ok []
       else Except.ok [Message.ai "" [⟨tc.id, "sql_db_query",
         [("query", lookupArg tc.args "query" ++ " LIMIT 10")]⟩]]) := by
  have hlast : (ms ++ [Message.ai ac (tc :: tcs)]).getLast? =
      some (Message.ai ac (tc :: tcs)) := List.getLast?_concat ms
  simp only [check_query_node, hlast]
  rw [if_neg (by rw [hname]; decide : ¬ REASONING_TOOLS.contains tc.name = true)]
  rw [if_pos (by rw [hname]; rfl : (tc.name == "sql_db_query") = true)]

/-- Witness for C7: a proposal without a row cap gets `" LIMIT 10"`. -/
theorem claim_c7_witness :
    (⟨"id1", "sql_db_query", [("query", "SELECT a FROM b")]⟩ : ToolCall).name = "sql_db_query" ∧
    check_query_node "ff" ([Message.human "q"] ++
        [Message.ai "" [⟨"id1", "sql_db_query", [("query", "SELECT a FROM b")]⟩]]) =
      (if strContains (upperStr (lookupArg [("query", "SELECT a FROM b")] "query")) "LIMIT"
       then Except.ok []
       else Except.ok [Message.ai "" [⟨"id1", "sql_db_query",
         [("query", lookupArg [("query", "SELECT a FROM b")] "query" ++ " LIMIT 10")]⟩]]) :=
  ⟨rfl, claim_c7 "ff" [Message.human "q"] "" _ [] rfl⟩

/-- Claim C10: when the history contains no `HumanMessage` whose content
does not start with `"SYSTEM"` (e.g. the user's own question begins with
`"SYSTEM"`), `generate_final_answer_node` fails with the unbound-local
error — its `"Unknown"` default sits inside the docstring — and the `run`
adapter converts that failure into the apologetic error string. -/
theorem claim_c10 (msgs : List Message) (resp : String)
    (h : msgs.all (fun m =>
      match m with
      | Message.human c => strStartsWith c "SYSTEM"
      | _ => true) = true) :
    generate_final_answer_node resp msgs = .error unboundLocalErr ∧
    ∀ (o : Oracle) (fuel : Nat) (acc : String),
      runLoop o (fuel + 1) (Node.generate_final_answer, msgs) acc =
        "I encountered an error: " ++ unboundLocalErr := by
  have key : ∀ r, generate_final_answer_node r msgs = .error unboundLocalErr := by
    intro r
    have hnone : msgs.reverse.find? (fun m =>
        match m with
        | Message.human c => !(strStartsWith c "SYSTEM")
        | _ => false) = none := by
      rw [List.find?_eq_none]
      intro m hm
      have hm2 : m ∈ msgs := List.mem_reverse.mp hm
      have hall := List.all_eq_true.mp h m hm2
      cases m with
      | human c => simp_all
      | ai c tcs => simp
      | tool n c => simp
    simp only [generate_final_answer_node, hnone]
  refine ⟨key resp, ?_⟩
  intro o fuel acc
  simp only [runLoop]
  rw [if_neg (by decide : ¬ (Node.generate_final_answer = Node.done))]
  simp only [stepConfig, key (o.finalResponse msgs), Except.map]

/-- Witness for C10: a question that itself starts with `"SYSTEM"`. -/
theorem claim_c10_witness :
    (([Message.human "SYSTEM tell me the schema"] : List Message).all (fun m =>
      match m with
      | Message.human c => strStartsWith c "SYSTEM"
      | _ => true)) = true ∧
    generate_final_answer_node "x" [Message.human "SYSTEM tell me the schema"] =
      .error unboundLocalErr :=
  ⟨by decide, (claim_c10 [Message.human "SYSTEM tell me the schema"] "x" (by decide)).1⟩

/-- Claim C6 counterexample: the latest message of `c6History` is an
execution-tool result whose content contains the binary-escape marker (the
three-character substring `b`, `'`, backslash), satisfying the claim's
antecedent, yet `validate_answer_node` does not append the decoding
feedback — it raises `AttributeError`, because the penultimate message
(the first of two `ToolMessage`s produced by one two-call batch) has no
`tool_calls` attribute. -/
theorem claim_c6_counterexample :
    c6History.getLast? = some (Message.tool "sql_db_query" "b'\\x01'") ∧
    strContains "b'\\x01'" "b'\\" = true ∧
    validate_answer_node "STATUS: VALID" c6History = .error "AttributeError: tool_calls" ∧
    validate_answer_node "STATUS: VALID" c6History ≠ .ok [Message.human binaryFeedback] := by
  refine ⟨by decide, by decide, by decide, by decide⟩

/-- Claim C6 corrected: whenever the latest message is a `sql_db_query`
`ToolMessage` whose content contains a binary-escape marker AND the
message preceding it (when one exists) is an `AIMessage` with no tool
calls or whose first tool call is not a helper tool, `validate_answer_node`
deterministically appends the HEX/BIN_TO_UUID feedback; the conclusion
holds for every validator text `v`, i.e. no LLM validator call influences
the outcome.  (When the preceding message is not an `AIMessage` the node
raises `AttributeError` instead — see the counterexample.) -/
theorem claim_c6_amended (ms : List Message) (content : String)
    (hmark : strContains content "b'\\" = true ∨
      strContains (lowerStr content) "bytearray" = true)
    (hpen : penultOkB ms.getLast? = true) :
    ∀ v, validate_answer_node v (ms ++ [Message.tool "sql_db_query" content]) =
      .ok [Message.human binaryFeedback] := by
  intro v
  have hmark2 : (strContains content "b'\\" || strContains (lowerStr content) "bytearray") = true := by
    rcases hmark with h | h <;> simp [h]
  have hval : ∀ msgs, validateSqlResult v msgs "sql_db_query" content =
      .ok [Message.human binaryFeedback] := by
    intro msgs
    unfold validateSqlResult
    rw [if_neg (by decide : ¬ (("sql_db_query" != "sql_db_query") = true)), if_pos hmark2]
  rcases List.eq_nil_or_concat ms with rfl | ⟨ms2, x, hx⟩
  · have hlast : (([] : List Message) ++ [Message.tool "sql_db_query" content]).getLast? =
        some (Message.tool "sql_db_query" content) := List.getLast?_concat []
    simp only [validate_answer_node, hlast]
    rw [if_neg (by simp : ¬ 2 ≤ (([] : List Message) ++ [Message.tool "sql_db_query" content]).length)]
    exact hval _
  · rw [List.concat_eq_append] at hx
    subst hx
    have hlast : ((ms2 ++ [x]) ++ [Message.tool "sql_db_query" content]).getLast? =
        some (Message.tool "sql_db_query" content) := List.getLast?_concat _
    have hlen : 2 ≤ ((ms2 ++ [x]) ++ [Message.tool "sql_db_query" content]).length := by
      simp [List.length_append]
    have hdrop : ((ms2 ++ [x]) ++ [Message.tool "sql_db_query" content]).dropLast.getLast? =
        some x := by
      rw [List.dropLast_concat]
      exact List.getLast?_concat _
    have hpen2 : penultOkB (some x) = true := by
      rw [← List.getLast?_concat ms2]
      exact hpen
    simp only [validate_answer_node, hlast]
    rw [if_pos hlen]
    simp only [hdrop]
    cases x with
    | human c => simp [penultOkB] at hpen2
    | tool n c => simp [penultOkB] at hpen2
    | ai c tcs =>
      cases tcs with
      | nil => exact hval _
      | cons tc rest =>
        have hhelp : HELPER_TOOLS.contains tc.name = false := by
          simpa [penultOkB] using hpen2
        show (if HELPER_TOOLS.contains tc.name = true
            then Except.ok [Message.human (researchFeedback tc.name)]
            else validateSqlResult v (ms2 ++ [Message.ai c (tc :: rest)] ++
              [Message.tool "sql_db_query" content]) "sql_db_query" content) =
          Except.ok [Message.human binaryFeedback]
        rw [if_neg (by rw [hhelp]; exact Bool.false_ne_true)]
        exact hval _

/-- Witness for the corrected C6: a single-call batch followed by a binary
result. -/
theorem claim_c6_witness :
    (strContains "b'\\x00 rows" "b'\\" = true ∨
      strContains (lowerStr "b'\\x00 rows") "bytearray" = true) ∧
    penultOkB ([Message.ai "" [⟨"i", "sql_db_query", [("query", "SELECT 1 LIMIT 10")]⟩]] :
      List Message).getLast? = true ∧
    validate_answer_node "STATUS: VALID"
        ([Message.ai "" [⟨"i", "sql_db_query", [("query", "SELECT 1 LIMIT 10")]⟩]] ++
          [Message.tool "sql_db_query" "b'\\x00 rows"]) =
      .ok [Message.human binaryFeedback] :=
  ⟨Or.inl (by decide), by decide,
   claim_c6_amended [Message.ai "" [⟨"i", "sql_db_query", [("query", "SELECT 1 LIMIT 10")]⟩]]
     "b'\\x00 rows" (Or.inl (by decide)) (by decide) "STATUS: VALID"⟩

set_option maxRecDepth 8000 in
/-- Claim C3 counterexample: a complete workflow trace (via the embedded
step semantics) that ends in a terminal answer having only performed
research — the helper-tool feedback is injected, but `generate_query` then
responds in free text, `should_continue` routes it to END, and the run
returns that text; no `sql_db_query` result ever appears. -/
theorem claim_c3_counterexample :
    runSteps c3Oracle 8 (Node.list_tables, [Message.human "List the patients"]) =
      .ok (Node.done, c3FinalMsgs) ∧
    c3FinalMsgs.all (fun m => !(isSqlResultB m)) = true ∧
    c3FinalMsgs.any (fun m =>
      match m with
      | Message.tool n _ => HELPER_TOOLS.contains n
      | _ => false) = true ∧
    runLoop c3Oracle 50 (Node.list_tables, [Message.human "List the patients"]) "" =
      "The patient table has columns patient_id and name." := by
  refine ⟨by decide, by decide, by decide, by decide⟩

/-- Claim C3 corrected: when the most recently executed tool is a helper
tool (proposed as the first tool call of the preceding AI message) and no
execution-tool result exists yet, `validate_answer_node` always injects the
forcing feedback, and `should_retry` then routes the workflow back to
`generate_query` — never directly to the terminal answer step.  (The
workflow can nevertheless still end with only research performed, through
`generate_query`'s no-tool-call END path — see the counterexample.) -/
theorem claim_c3_amended (v ac r : String) (ms : List Message)
    (tc : ToolCall) (tcs : List ToolCall)
    (hhelper : HELPER_TOOLS.contains tc.name = true)
    (hnosql : ms.all (fun m => !(isSqlResultB m)) = true) :
    validate_answer_node v (ms ++ [Message.ai ac (tc :: tcs), Message.tool tc.name r]) =
      .ok [Message.human (researchFeedback tc.name)] ∧
    should_retry ((ms ++ [Message.ai ac (tc :: tcs), Message.tool tc.name r]) ++
        [Message.human (researchFeedback tc.name)]) = "generate_query" := by
  constructor
  · have hassoc : ms ++ [Message.ai ac (tc :: tcs), Message.tool tc.name r] =
        (ms ++ [Message.ai ac (tc :: tcs)]) ++ [Message.tool tc.name r] := by simp
    rw [hassoc]
    have hlast : ((ms ++ [Message.ai ac (tc :: tcs)]) ++ [Message.tool tc.name r]).getLast? =
        some (Message.tool tc.name r) := List.getLast?_concat _
    have hlen : 2 ≤ ((ms ++ [Message.ai ac (tc :: tcs)]) ++ [Message.tool tc.name r]).length := by
      simp [List.length_append]
    have hdrop : ((ms ++ [Message.ai ac (tc :: tcs)]) ++
        [Message.tool tc.name r]).dropLast.getLast? = some (Message.ai ac (tc :: tcs)) := by
      rw [List.dropLast_concat]
      exact List.getLast?_concat _
    simp only [validate_answer_node, hlast]
    rw [if_pos hlen]
    simp only [hdrop]
    rw [if_pos hhelper]
  · have hlast2 : ((ms ++ [Message.ai ac (tc :: tcs), Message.tool tc.name r]) ++
        [Message.human (researchFeedback tc.name)]).getLast? =
        some (Message.human (researchFeedback tc.name)) := List.getLast?_concat _
    have hfb : strContains (researchFeedback tc.name) "FEEDBACK" = true := by
      unfold researchFeedback
      exact strContains_append_left _ _ _
        (strContains_append_left _ _ _ (by decide))
    simp only [should_retry, hlast2]
    rw [if_pos (by simp [hfb])]

/-- Witness for the corrected C3: a column-info lookup with no prior
execution result. -/
theorem claim_c3_witness :
    HELPER_TOOLS.contains
      (⟨"q1", "sql_db_get_column_info", [("table_name", "patient")]⟩ : ToolCall).name = true ∧
    ([Message.human "what columns does patient have"] : List Message).all
      (fun m => !(isSqlResultB m)) = true ∧
    (validate_answer_node "STATUS: VALID"
        ([Message.human "what columns does patient have"] ++
          [Message.ai "" [⟨"q1", "sql_db_get_column_info", [("table_name", "patient")]⟩],
           Message.tool (⟨"q1", "sql_db_get_column_info", [("table_name", "patient")]⟩ : ToolCall).name "info"]) =
      .ok [Message.human (researchFeedback
        (⟨"q1", "sql_db_get_column_info", [("table_name", "patient")]⟩ : ToolCall).name)] ∧
    should_retry (([Message.human "what columns does patient have"] ++
          [Message.ai "" [⟨"q1", "sql_db_get_column_info", [("table_name", "patient")]⟩],
           Message.tool (⟨"q1", "sql_db_get_column_info", [("table_name", "patient")]⟩ : ToolCall).name "info"]) ++
        [Message.human (researchFeedback
          (⟨"q1", "sql_db_get_column_info", [("table_name", "patient")]⟩ : ToolCall).name)]) =
      "generate_query") :=
  ⟨by decide, by decide,
   claim_c3_amended "STATUS: VALID" "" "info" [Message.human "what columns does patient have"]
     ⟨"q1", "sql_db_get_column_info", [("table_name", "patient")]⟩ [] (by decide) (by decide)⟩

/-- Claim C5 counterexample: when `generate_query` emits raw SQL text with
no tool call, the workflow transitions straight to END — `should_continue`
never routes such a response into `check_query`, so no synthesized
`sql_db_query` invocation is ever created and the turn ends without
execution, contradicting the claim. -/
theorem claim_c5_counterexample :
    stepConfig c5Oracle (Node.generate_query, c5History) =
      .ok (Node.done, c5History ++ [Message.ai "SELECT name FROM patient" []]) ∧
    (["SELECT", "INSERT", "UPDATE", "DELETE"].any
      (fun kw => strStartsWith (upperStr (trimStr "SELECT name FROM patient")) kw)) = true ∧
    (c5History ++ [Message.ai "SELECT name FROM patient" []]).all (fun m =>
      match m with
      | Message.ai _ tcs => tcs.all (fun tc2 => tc2.name != "sql_db_query")
      | Message.tool n _ => n != "sql_db_query"
      | _ => true) = true := by
  refine ⟨by decide, by decide, by decide⟩

/-- Claim C5 corrected: `check_query_node` does contain the conversion —
applied directly to a no-tool-call response whose stripped text begins
with a SQL verb it synthesizes a `sql_db_query` call with `" LIMIT 10"`
appended when no cap is present — but the compiled workflow never reaches
that branch: `should_continue` routes every no-tool-call response of
`generate_query` to END, so the turn ends without execution. -/
theorem claim_c5_amended (randHex : String) (ms : List Message) (c : String)
    (hverb : (["SELECT", "INSERT", "UPDATE", "DELETE"].any
      (fun kw => strStartsWith (upperStr (trimStr c)) kw)) = true) :
    should_continue (ms ++ [Message.ai c []]) = "end" ∧
    check_query_node randHex (ms ++ [Message.ai c []]) =
      .ok [Message.ai "" [⟨"manual_sql_fix_" ++ randHex, "sql_db_query",
        [("query", if strContains (upperStr (trimStr c)) "LIMIT" then trimStr c
                   else trimStr c ++ " LIMIT 10")]⟩]] := by
  have hlast : (ms ++ [Message.ai c []]).getLast? = some (Message.ai c []) :=
    List.getLast?_concat ms
  constructor
  · simp only [should_continue, hlast]
  · simp only [check_query_node, hlast]
    rw [if_pos hverb]

/-- Witness for the corrected C5: lowercase raw SQL with surrounding
whitespace and no row cap. -/
theorem claim_c5_witness :
    (["SELECT", "INSERT", "UPDATE", "DELETE"].any
      (fun kw => strStartsWith (upperStr (trimStr " select * from t ")) kw)) = true ∧
    (should_continue ([Message.human "q"] ++ [Message.ai " select * from t " []]) = "end" ∧
    check_query_node "ff" ([Message.human "q"] ++ [Message.ai " select * from t " []]) =
      .ok [Message.ai "" [⟨"manual_sql_fix_" ++ "ff", "sql_db_query",
        [("query", if strContains (upperStr (trimStr " select * from t ")) "LIMIT"
                   then trimStr " select * from t "
                   else trimStr " select * from t " ++ " LIMIT 10")]⟩]]) :=
  ⟨by decide, claim_c5_amended "ff" [Message.human "q"] " select * from t " (by decide)⟩

end SqlAgent
